import Mathlib

/-!
Verification development for the Rapidgator batch-download extension.

The repository ships two background-worker variants inside `background.js`:

* **v1 (polling)**: `processTab` records the most recent download id
  (`maxIdBefore`), clicks, then `waitForMatchingDownload` repeatedly fetches
  the ten most recently started downloads and looks for a new one matching
  the tab's clicked link URL or expected filename.
* **v2 (event-driven)**: a `downloadStates` map keyed by tab id, fed by
  `handleStartDownload`, with `chrome.downloads.onCreated`/`onChanged`
  listeners that match incoming download events to clicked tabs via
  `findMatchingTab`, a timeout per tab (`monitorDownloadStart`), and a retry
  entry point (`handleRetryFailed`).

Both variants, the popup's concurrency-limited scheduler (`processNext`),
and the filename-extraction helpers are embedded below as pure functions or
explicit state transitions.  Host primitives (the URL parser,
`decodeURIComponent`, timers, `chrome.downloads.search` ordering) are
modelled at their documented contracts.
-/

/-! ## String / list utilities mirroring the JavaScript primitives used -/

/-- JavaScript string truthiness for values that are a string, `null` or
`undefined`: `none` models null/undefined, and the empty string is falsy. -/
def strTruthy : Option String → Bool
  | none => false
  | some s => !(s == "")

/-- `haystack.includes(needle)` on character lists: some suffix of `s` has
`pat` as a prefix. -/
def containsSub (s pat : List Char) : Bool :=
  match s with
  | [] => pat.isEmpty
  | _ :: rest => pat.isPrefixOf s || containsSub rest pat

/-- JavaScript `s.replace(pat, '')` for a non-empty literal `pat`: removes the
first occurrence of `pat` from `s`, leaving `s` unchanged when `pat` does not
occur. -/
def replaceFirstL (s pat : List Char) : List Char :=
  match s with
  | [] => []
  | c :: rest =>
      if pat.isPrefixOf (c :: rest) then (c :: rest).drop pat.length
      else c :: replaceFirstL rest pat

/-- JavaScript `s.split(sep)` on character lists: always returns at least one
(possibly empty) part. -/
def splitOnChar (sep : Char) : List Char → List (List Char)
  | [] => [[]]
  | c :: rest =>
      let r := splitOnChar sep rest
      if c = sep then [] :: r
      else
        match r with
        | [] => [[c]]
        | h :: t => (c :: h) :: t

/-- Value of a hexadecimal digit, `none` for non-hex characters. -/
def hexDigit (c : Char) : Option Nat :=
  if '0' ≤ c ∧ c ≤ '9' then some (c.toNat - '0'.toNat)
  else if 'a' ≤ c ∧ c ≤ 'f' then some (c.toNat - 'a'.toNat + 10)
  else if 'A' ≤ c ∧ c ≤ 'F' then some (c.toNat - 'A'.toNat + 10)
  else none

/-- A unit of percent-decoding: either a character passed through verbatim or
a raw byte produced by a `%XX` escape. -/
inductive DecUnit where
  | ch (c : Char)
  | byte (b : Nat)
deriving DecidableEq

/-- First pass of the host `decodeURIComponent` model: parse `%XX` escapes
into bytes; a malformed escape makes the whole decode fail (the host throws
`URIError`, which the callers catch). -/
def pctUnits : List Char → Option (List DecUnit)
  | [] => some []
  | '%' :: h1 :: h2 :: rest =>
      match hexDigit h1, hexDigit h2, pctUnits rest with
      | some a, some b, some r => some (DecUnit.byte (16 * a + b) :: r)
      | _, _, _ => none
  | '%' :: _ => none
  | c :: rest =>
      match pctUnits rest with
      | some r => some (DecUnit.ch c :: r)
      | none => none

/-- Is `b` a UTF-8 continuation byte? -/
def isContByte (b : Nat) : Bool := 0x80 ≤ b && b < 0xC0

/-- Second pass of the host `decodeURIComponent` model: assemble escaped
bytes into UTF-8 code points; invalid sequences fail (host throws). -/
def utf8Units : List DecUnit → Option (List Char)
  | [] => some []
  | DecUnit.ch c :: rest =>
      match utf8Units rest with
      | some r => some (c :: r)
      | none => none
  | DecUnit.byte b :: rest =>
      if b < 0x80 then
        match utf8Units rest with
        | some r => some (Char.ofNat b :: r)
        | none => none
      else if 0xC0 ≤ b ∧ b < 0xE0 then
        match rest with
        | DecUnit.byte b2 :: rest2 =>
            if isContByte b2 then
              let n := (b - 0xC0) * 64 + (b2 - 0x80)
              if n.isValidChar then
                match utf8Units rest2 with
                | some r => some (Char.ofNat n :: r)
                | none => none
              else none
            else none
        | _ => none
      else if 0xE0 ≤ b ∧ b < 0xF0 then
        match rest with
        | DecUnit.byte b2 :: DecUnit.byte b3 :: rest3 =>
            if isContByte b2 && isContByte b3 then
              let n := (b - 0xE0) * 4096 + (b2 - 0x80) * 64 + (b3 - 0x80)
              if n.isValidChar then
                match utf8Units rest3 with
                | some r => some (Char.ofNat n :: r)
                | none => none
              else none
            else none
        | _ => none
      else if 0xF0 ≤ b ∧ b < 0xF8 then
        match rest with
        | DecUnit.byte b2 :: DecUnit.byte b3 :: DecUnit.byte b4 :: rest4 =>
            if isContByte b2 && isContByte b3 && isContByte b4 then
              let n := (b - 0xF0) * 262144 + (b2 - 0x80) * 4096 +
                (b3 - 0x80) * 64 + (b4 - 0x80)
              if n.isValidChar then
                match utf8Units rest4 with
                | some r => some (Char.ofNat n :: r)
                | none => none
              else none
            else none
        | _ => none
      else none

/-- Model of the host `decodeURIComponent`: `none` when the host throws. -/
def percentDecode (s : List Char) : Option (List Char) :=
  match pctUnits s with
  | some units => utf8Units units
  | none => none

/-- Model of the host URL parser's `pathname` accessor (`new URL(url).pathname`)
on the absolute http(s) URLs this extension handles: the text after the
scheme separator and authority, up to any query or fragment, `"/"` when the
URL has no path.  Inputs the host constructor rejects map to `none` (it
throws, and every caller catches). -/
def urlPathname (url : String) : Option String :=
  let rec afterSep : List Char → Option (List Char)
    | [] => none
    | ':' :: '/' :: '/' :: rest => some rest
    | _ :: rest => afterSep rest
  match afterSep url.data with
  | none => none
  | some hostRest =>
      let host := hostRest.takeWhile (fun c => c ≠ '/' ∧ c ≠ '?' ∧ c ≠ '#')
      if host.isEmpty then none
      else
        let afterHost := hostRest.dropWhile (fun c => c ≠ '/' ∧ c ≠ '?' ∧ c ≠ '#')
        match afterHost with
        | '/' :: _ => some (String.mk (afterHost.takeWhile (fun c => c ≠ '?' ∧ c ≠ '#')))
        | _ => some "/"

/-! ## Download events -/

/-- Lifecycle state of a host download (`chrome.downloads` item state). -/
inductive DlState where
  | in_progress
  | complete
  | interrupted
deriving DecidableEq

/-- A host download item / event as consumed by the matchers: identifier,
URL, optional final-redirect URL, optional referrer, filename (populated
progressively, possibly empty), lifecycle state and start time.  `none`
models a JavaScript `undefined`/`null` field. -/
structure DownloadItem where
  id : Nat
  url : String
  finalUrl : Option String
  referrer : Option String
  filename : Option String
  state : DlState
  startTime : Int
deriving DecidableEq

/-! ## v1: the polling matcher (`waitForMatchingDownload`) -/

/-- The new-download filter of `waitForMatchingDownload`'s poll
(background.js v1): `d.id > maxIdBefore && (d.state === 'in_progress' ||
d.state === 'complete')`. -/
def v3Qualifies (maxIdBefore : Nat) (d : DownloadItem) : Bool :=
  decide (maxIdBefore < d.id) &&
    (d.state == DlState.in_progress || d.state == DlState.complete)

/-- The match predicate of `waitForMatchingDownload`'s `newDownloads.find`
(background.js v1): exact clicked-URL equality against `url`/`finalUrl`
first, then filename-substring inclusion; with no information the item never
matches (`return false`). -/
def v3Matches (expectedFilename expectedUrl : Option String) (d : DownloadItem) : Bool :=
  (strTruthy expectedUrl && some d.url == expectedUrl) ||
  (strTruthy expectedUrl && d.finalUrl == expectedUrl) ||
  (strTruthy expectedFilename && strTruthy d.filename &&
    (match d.filename, expectedFilename with
     | some f, some e => containsSub f.data e.data
     | _, _ => false))

/-- One poll body of `waitForMatchingDownload`: filter the fetched recent
downloads down to new in-progress/complete ones, then take the first match. -/
def v3FindMatch (maxIdBefore : Nat) (expectedFilename expectedUrl : Option String)
    (recent : List DownloadItem) : Option DownloadItem :=
  (recent.filter (v3Qualifies maxIdBefore)).find? (v3Matches expectedFilename expectedUrl)

/-- The per-tab matching parameters of one v1 `processTab` run: the download
id snapshot taken before the click, the expected filename derived from the
tab URL, and the clicked link URL reported by the actuation script. -/
structure PollIntent where
  maxIdBefore : Nat
  expectedFilename : Option String
  expectedUrl : Option String
deriving DecidableEq

/-- In v1 every clicked tab runs its own `waitForMatchingDownload` poll with
no shared pool: a download `d` visible in `recent` is claimed by every
intent whose own poll returns it.  This is the set of such intents. -/
def v3Claimants (recent : List DownloadItem) (d : DownloadItem)
    (intents : List PollIntent) : List PollIntent :=
  intents.filter fun i =>
    v3FindMatch i.maxIdBefore i.expectedFilename i.expectedUrl recent == some d

/-- Insertion step for the host's `-startTime` ordering of
`chrome.downloads.search`. -/
def insertByStart (d : DownloadItem) : List DownloadItem → List DownloadItem
  | [] => [d]
  | e :: rest =>
      if e.startTime < d.startTime then d :: e :: rest else e :: insertByStart d rest

/-- Model of the host's `chrome.downloads.search({orderBy: ['-startTime']})`
result order: downloads sorted by start time, newest first. -/
def sortByStartDesc : List DownloadItem → List DownloadItem
  | [] => []
  | d :: rest => insertByStart d (sortByStartDesc rest)

/-- What one poll of `waitForMatchingDownload` actually sees: the query uses
`orderBy: ['-startTime'], limit: 10`, so only the ten most recently started
downloads of the host's store. -/
def recentTen (all : List DownloadItem) : List DownloadItem :=
  (sortByStartDesc all).take 10

/-- One poll iteration against a snapshot of the host's download store. -/
def pollOnce (maxIdBefore : Nat) (expectedFilename expectedUrl : Option String)
    (all : List DownloadItem) : Option DownloadItem :=
  v3FindMatch maxIdBefore expectedFilename expectedUrl (recentTen all)

/-- The whole polling loop over successive snapshots of the host's download
store, one per 500 ms tick: the first successful poll resolves the promise;
if every poll up to the 30 s deadline fails the promise rejects with
`Timeout` (`none`). -/
def pollRun (maxIdBefore : Nat) (expectedFilename expectedUrl : Option String) :
    List (List DownloadItem) → Option DownloadItem
  | [] => none
  | snap :: rest =>
      match pollOnce maxIdBefore expectedFilename expectedUrl snap with
      | some d => some d
      | none => pollRun maxIdBefore expectedFilename expectedUrl rest

/-! ## Filename extraction -/

/-- The inline `expectedFilename` extraction of v1 `processTab`
(background.js lines 53-64): last path segment of the tab URL, first
occurrence of `".html"` removed, percent-decoded; `null` when the URL fails
to parse, the segment is empty, or decoding throws. -/
def expectedFilenameOf (url : String) : Option String :=
  match urlPathname url with
  | none => none
  | some path =>
      let parts := splitOnChar '/' path.data
      let lastPart := parts.getLastD []
      if lastPart.isEmpty then none
      else
        match percentDecode (replaceFirstL lastPart ".html".data) with
        | some cs => some (String.mk cs)
        | none => none

/-- `extractFileName` of background.js v2 (and popup.js): same as the v1
extraction but additionally requires the last segment to contain a dot. -/
def extractFileName (url : String) : Option String :=
  match urlPathname url with
  | none => none
  | some path =>
      let parts := splitOnChar '/' path.data
      let lastPart := parts.getLastD []
      if !lastPart.isEmpty && lastPart.contains '.' then
        match percentDecode (replaceFirstL lastPart ".html".data) with
        | some cs => some (String.mk cs)
        | none => none
      else none

/-- Refinement comparator written from the specification's words, for
comparison with `expectedFilenameOf`: "the final path segment of the URL,
percent-decoded, with a known page-extension suffix stripped" — i.e. the
`".html"` suffix is removed only when it is a suffix. -/
def specExpectedFilename (url : String) : Option String :=
  match urlPathname url with
  | none => none
  | some path =>
      let parts := splitOnChar '/' path.data
      let lastPart := parts.getLastD []
      if lastPart.isEmpty then none
      else
        let stripped :=
          if ".html".data.isSuffixOf lastPart then
            lastPart.take (lastPart.length - ".html".length)
          else lastPart
        match percentDecode stripped with
        | some cs => some (String.mk cs)
        | none => none

/-! ## v1 `processTab` outcome -/

/-- The per-tab result object built by v1 `processTab`.  `warnings` records
the `console.warn` emitted when closing the tab fails. -/
structure ProcessResult where
  success : Bool
  tabId : Nat
  downloadId : Option Nat
  error : Option String
  warnings : List String
deriving DecidableEq

/-- Outcome computation of v1 `processTab` (background.js lines 47-101),
parametrised by the results of its awaited host interactions: the actuation
script (`clickDownloadButton`), the matching wait (`none` = the 30 s
timeout), and the tab-close call.  A close failure after a confirmed match
is only logged; the result stays a success carrying the download id. -/
def processTab (tabId : Nat) (clickResult : Except String (Option String))
    (matchResult : Option DownloadItem) (closeOk : Bool) : ProcessResult :=
  match clickResult with
  | Except.error msg => ⟨false, tabId, none, some msg, []⟩
  | Except.ok _clickedUrl =>
      match matchResult with
      | some d =>
          let warns := if closeOk then [] else ["Could not close tab"]
          ⟨true, tabId, some d.id, none, warns⟩
      | none => ⟨false, tabId, none, some "Timeout waiting for download", []⟩

/-! ## v2: the event-driven background worker -/

/-- The `STATE` constants of background.js v2. -/
inductive St where
  | pending
  | clicked
  | downloading
  | completed
  | failed
deriving DecidableEq

/-- One entry of the v2 `downloadStates` map: the per-tab download state
record, with the optional fields absent until assigned. -/
structure TabState where
  tabId : Nat
  url : String
  fileName : String
  state : St
  retryCount : Nat
  startTime : Int
  downloadId : Option Nat
  timeoutId : Option Nat
  error : Option String
deriving DecidableEq

/-- The v2 worker state: the `downloadStates` map (a JavaScript `Map`, i.e.
an insertion-ordered association list over tab ids), the set of live host
timers as `(timerId, tabId)` pairs, and the next timer id the host will
hand out (host timer ids start at 1, so a stored id is always truthy). -/
structure Sys where
  table : List (Nat × TabState)
  timers : List (Nat × Nat)
  nextTimer : Nat
deriving DecidableEq

/-- The empty worker state at service-worker startup. -/
def sysInit : Sys := ⟨[], [], 1⟩

/-- `Map.get`: first value stored under the key. -/
def mapGet (k : Nat) : List (Nat × TabState) → Option TabState
  | [] => none
  | (k', v) :: rest => if k' == k then some v else mapGet k rest

/-- `Map.set`: replace in place (JavaScript `Map.set` keeps the original
insertion position of an existing key), append otherwise. -/
def mapSet (k : Nat) (v : TabState) : List (Nat × TabState) → List (Nat × TabState)
  | [] => [(k, v)]
  | (k', v') :: rest =>
      if k' == k then (k, v) :: rest else (k', v') :: mapSet k v rest

/-- `CONFIG.DOWNLOAD_TIMEOUT_MS` of background.js v2. -/
def DOWNLOAD_TIMEOUT_MS : Int := 30000

/-- `CONFIG.MAX_RETRY_COUNT` of background.js v2. -/
def MAX_RETRY_COUNT : Nat := 2

/-- `updateState` (background.js lines 529-536): overwrite the state tag of
an existing entry unconditionally, keeping the previous error when none is
supplied. -/
def updateState (tabId : Nat) (newState : St) (err : Option String) (s : Sys) : Sys :=
  match mapGet tabId s.table with
  | none => s
  | some st =>
      let st' := { st with
        state := newState
        error := match err with | some e => some e | none => st.error }
      { s with table := mapSet tabId st' s.table }

/-- `monitorDownloadStart` (background.js lines 324-340): arm the 30 s
timeout for the tab and remember its handle in the entry.  Firing the timer
is modelled by `fireTimeout` below. -/
def monitorDownloadStart (tabId : Nat) (s : Sys) : Sys :=
  match mapGet tabId s.table with
  | none => s
  | some st =>
      let tid := s.nextTimer
      { table := mapSet tabId { st with timeoutId := some tid } s.table
        timers := s.timers ++ [(tid, tabId)]
        nextTimer := tid + 1 }

/-- `handleStartDownload` (background.js lines 269-298): initialise a fresh
entry (note: `retryCount: 0` even on a retry resubmission), then either mark
the click failure or mark the entry clicked and arm its timeout.  `clickOk`
is the outcome of the awaited `clickDownloadButton` script; `now` is the
host clock. -/
def handleStartDownload (now : Int) (tabId : Nat) (url : String) (clickOk : Bool)
    (s : Sys) : Sys × Bool :=
  let fileName :=
    match extractFileName url with
    | some f => f
    | none => "Tab " ++ toString tabId
  let st0 : TabState :=
    { tabId := tabId, url := url, fileName := fileName, state := St.pending
      retryCount := 0, startTime := now, downloadId := none, timeoutId := none
      error := none }
  let s1 := { s with table := mapSet tabId st0 s.table }
  if clickOk then
    (monitorDownloadStart tabId (updateState tabId St.clicked none s1), true)
  else
    (updateState tabId St.failed (some "Download button not found") s1, false)

/-- The host executing the callback registered by `monitorDownloadStart`:
only a still-live (never cleared) timer runs; the callback marks the tab
failed only when its current state is still `clicked`. -/
def fireTimeout (timerId : Nat) (s : Sys) : Sys :=
  match s.timers.find? (fun p => p.1 == timerId) with
  | none => s
  | some (_, tabId) =>
      let s' := { s with timers := s.timers.filter (fun p => !(p.1 == timerId)) }
      match mapGet tabId s'.table with
      | none => s'
      | some st =>
          if st.state == St.clicked then
            updateState tabId St.failed (some "Download start timeout") s'
          else s'

/-- Rule 1 of `findMatchingTab` (background.js lines 481-490): a clicked
entry whose tab URL equals, or starts with, the event's referrer. -/
def tier1Pred (item : DownloadItem) (st : TabState) : Bool :=
  st.state == St.clicked &&
    (item.referrer == some st.url ||
      (match item.referrer with
       | some r => r.data.isPrefixOf st.url.data
       | none => false))

/-- The `isRapidgatorDownload` test inside `findMatchingTab`'s fallback loop:
`(item.url || item.finalUrl || '')` mentions rapidgator/rg.to, or the
referrer mentions rapidgator. -/
def isRapidgatorDownload (item : DownloadItem) : Bool :=
  let downloadUrl :=
    if !(item.url == "") then item.url
    else match item.finalUrl with
      | some f => if f == "" then "" else f
      | none => ""
  containsSub downloadUrl.data "rapidgator".data ||
  containsSub downloadUrl.data "rg.to".data ||
  (strTruthy item.referrer &&
    (match item.referrer with
     | some r => containsSub r.data "rapidgator".data
     | none => false))

/-- Rule 2 of `findMatchingTab` (background.js lines 493-512): a clicked
entry whose click is less than 30 s old, provided the event looks like a
rapidgator download. -/
def tier2Pred (now : Int) (item : DownloadItem) (st : TabState) : Bool :=
  st.state == St.clicked && decide (now - st.startTime < DOWNLOAD_TIMEOUT_MS) &&
    isRapidgatorDownload item

/-- The first loop of `findMatchingTab`, guarded by `if (downloadItem.referrer)`:
first entry in insertion order passing the referrer rule. -/
def tier1Find (item : DownloadItem) (table : List (Nat × TabState)) :
    Option (Nat × TabState) :=
  if strTruthy item.referrer then table.find? (fun p => tier1Pred item p.2)
  else none

/-- `findMatchingTab` (background.js lines 480-524): referrer match over the
entries in insertion order, then the time-gated rapidgator fallback, then the
single-clicked-tab last resort. -/
def findMatchingTab (item : DownloadItem) (table : List (Nat × TabState)) (now : Int) :
    Option (Nat × TabState) :=
  match tier1Find item table with
  | some e => some e
  | none =>
      match table.find? (fun p => tier2Pred now item p.2) with
      | some e => some e
      | none =>
          match table.filter (fun p => p.2.state == St.clicked) with
          | [e] => some e
          | _ => none

/-- The `chrome.downloads.onCreated` listener (background.js lines 349-369):
match the new download to a clicked tab; on a match clear the tab's timeout,
record the download id and move the entry to `downloading`. -/
def onCreated (item : DownloadItem) (now : Int) (s : Sys) : Sys :=
  match findMatchingTab item s.table now with
  | none => s
  | some (tabId, st) =>
      let timers' :=
        match st.timeoutId with
        | some t => s.timers.filter (fun p => !(p.1 == t))
        | none => s.timers
      { s with
        timers := timers'
        table := mapSet tabId
          { st with downloadId := some item.id, state := St.downloading } s.table }

/-- A `chrome.downloads.onChanged` delta: the download id, the new lifecycle
state if it changed, and an error field if one appeared. -/
structure DownloadDelta where
  id : Nat
  stateCur : Option DlState
  error : Option String
deriving DecidableEq

/-- The `chrome.downloads.onChanged` listener (background.js lines 374-400):
find the entry owning the download id, then run the three checks in source
order.  The `in_progress` branch (`handleDownloadConfirmed`) only closes the
tab — an external effect that never touches the entry, even when closing
fails.  Note there is no terminal-state guard: `updateState` overwrites
whatever state the entry is in. -/
def onChanged (delta : DownloadDelta) (s : Sys) : Sys :=
  match s.table.find? (fun p => p.2.downloadId == some delta.id) with
  | none => s
  | some (tabId, _) =>
      let s1 :=
        if delta.stateCur == some DlState.complete then
          updateState tabId St.completed none s
        else s
      if delta.error.isSome || delta.stateCur == some DlState.interrupted then
        updateState tabId St.failed (some "Download interrupted") s1
      else s1

/-- The `clearStates` message handler (background.js lines 255-258):
`downloadStates.clear()` — the map is emptied but no timer is cancelled. -/
def clearStates (s : Sys) : Sys := { s with table := [] }

/-- Result of `handleRetryFailed`, one constructor per distinct response. -/
inductive RetryResult where
  | noTarget
  | limitExceeded
  | tabClosed
  | proceeded (success : Bool)
deriving DecidableEq

/-- `handleRetryFailed` (background.js lines 431-454): refuse unless the
entry exists and is `failed`, its retry count is below `MAX_RETRY_COUNT` and
the tab is still open (`liveTabs` models which `chrome.tabs.get` calls
succeed); otherwise bump the retry count, reset to `pending` and resubmit
through `handleStartDownload` (which re-initialises the entry, including its
retry count). -/
def handleRetryFailed (now : Int) (liveTabs : List Nat) (clickOk : Bool) (tabId : Nat)
    (s : Sys) : Sys × RetryResult :=
  match mapGet tabId s.table with
  | none => (s, RetryResult.noTarget)
  | some st =>
      if !(st.state == St.failed) then (s, RetryResult.noTarget)
      else if MAX_RETRY_COUNT ≤ st.retryCount then (s, RetryResult.limitExceeded)
      else if !(liveTabs.contains tabId) then (s, RetryResult.tabClosed)
      else
        let st' := { st with retryCount := st.retryCount + 1, state := St.pending
                             startTime := now }
        let s1 := { s with table := mapSet tabId st' s.table }
        let r := handleStartDownload now tabId st.url clickOk s1
        (r.1, RetryResult.proceeded r.2)

/-! ## The popup's concurrency-limited scheduler -/

/-- The mutable locals of `startDownload`/`processNext` (popup, part_001
lines 113-191): the submission cursor and the active-slot counter, alongside
the run's constants. -/
structure SchedState where
  total : Nat
  limit : Nat
  currentIndex : Nat
  activeSlots : Nat
deriving DecidableEq

/-- Scheduler state at the start of a run over `total` tabs with
concurrency limit `limit`. -/
def schedInit (total limit : Nat) : SchedState := ⟨total, limit, 0, 0⟩

/-- The two atomic scheduler events of `processNext` (part_001 lines
166-190).  `admitTab` is one pass of the `while (currentIndex < totalTabs &&
activeSlots < maxConcurrent)` body: the guard check, `currentIndex++` and
`activeSlots++` run synchronously with no interleaving point between them.
`finish` is the `.then` continuation of `processSingleTab` decrementing
`activeSlots`. -/
inductive SchedStep : SchedState → SchedState → Prop
  | admitTab (s : SchedState) (h1 : s.currentIndex < s.total) (h2 : s.activeSlots < s.limit) :
      SchedStep s ⟨s.total, s.limit, s.currentIndex + 1, s.activeSlots + 1⟩
  | finish (s : SchedState) (h : 0 < s.activeSlots) :
      SchedStep s ⟨s.total, s.limit, s.currentIndex, s.activeSlots - 1⟩

/-! ## Concrete instances used by the claim checks -/

/-- A stale download whose id (3) is below an epoch snapshot of 5, even
though its URL and filename match the intent's signals exactly. -/
def dOld : DownloadItem :=
  ⟨3, "https://rg.net/download/a/b.zip", none, none, some "b.zip", DlState.in_progress, 10⟩

/-- An event that exactly equals `intentA`'s clicked URL while also
containing `intentB`'s expected filename as a substring. -/
def dBoth : DownloadItem :=
  ⟨7, "https://rg.net/download/ab/file.zip", none, none, some "C:/dl/file.zip",
    DlState.in_progress, 100⟩

/-- An intent whose actuation resolved a direct link equal to `dBoth.url`. -/
def intentA : PollIntent := ⟨0, some "other.bin", some "https://rg.net/download/ab/file.zip"⟩

/-- An intent with no clicked URL whose expected filename occurs in
`dBoth.filename`. -/
def intentB : PollIntent := ⟨0, some "file.zip", none⟩

/-- A lone clicked entry with no extractable filename (the `Tab 7` fallback
name) — the singleton-fallback scenario. -/
def stLone : TabState :=
  ⟨7, "https://rg.net/file/q/z", "Tab 7", St.clicked, 0, 0, none, some 1, none⟩

/-- An event with no referrer, a non-rapidgator URL and an empty filename,
arriving long after the click. -/
def itemLone : DownloadItem :=
  ⟨9, "https://cdn.host/x", none, none, some "", DlState.in_progress, 99999⟩

/-- A created-download event whose referrer equals the tab URL of the intent
submitted in `c3s1`. -/
def c3item : DownloadItem :=
  ⟨5, "https://rg.net/f/a.zip.html", none, some "https://rg.net/f/a.zip.html", some "",
    DlState.in_progress, 50⟩

/-- Tab 1 submitted and clicked. -/
def c3s1 : Sys := (handleStartDownload 0 1 "https://rg.net/f/a.zip.html" true sysInit).1

/-- The download event matched: tab 1 is `downloading` with download id 5. -/
def c3s2 : Sys := onCreated c3item 1 c3s1

/-- A `complete` delta arrives: tab 1 reaches the terminal `completed`. -/
def c3s3 : Sys := onChanged ⟨5, some DlState.complete, none⟩ c3s2

/-- A later `interrupted` delta for the same download id: tab 1 is mutated
out of its terminal state. -/
def c3s4 : Sys := onChanged ⟨5, some DlState.interrupted, none⟩ c3s3

/-- Tab 1 submitted and clicked; timer 1 armed. -/
def c4s1 : Sys := (handleStartDownload 0 1 "u" true sysInit).1

/-- The manual clear: the table is emptied but timer 1 stays live. -/
def c4s2 : Sys := clearStates c4s1

/-- Tab 1 re-submitted in a new run; timer 2 armed, timer 1 still live. -/
def c4s3 : Sys := (handleStartDownload 100 1 "u" true c4s2).1

/-- The stale timer from the cleared run fires. -/
def c4s4 : Sys := fireTimeout 1 c4s3

/-- Tab 1 submitted with a failing click: entry is `failed`, retry count 0. -/
def c7s1 : Sys := (handleStartDownload 0 1 "u" false sysInit).1

/-- First retry (click fails again). -/
def c7r1 : Sys × RetryResult := handleRetryFailed 10 [1] false 1 c7s1

/-- Second retry. -/
def c7r2 : Sys × RetryResult := handleRetryFailed 20 [1] false 1 c7r1.1

/-- Third retry — beyond `MAX_RETRY_COUNT = 2`. -/
def c7r3 : Sys × RetryResult := handleRetryFailed 30 [1] false 1 c7r2.1

/-- Ten filler downloads, all newer than `dHidden` and matching nothing. -/
def fillerDl (i : Nat) : DownloadItem :=
  ⟨i + 2, "https://cdn.example/f", none, none, some "f.bin", DlState.in_progress,
    100 + Int.ofNat i⟩

/-- A qualifying, matching download that ten newer downloads push out of the
ten-item search window. -/
def dHidden : DownloadItem :=
  ⟨1, "https://rg.net/download/z/t.bin", none, none, some "target.zip",
    DlState.in_progress, 1⟩

/-- A host download store in which `dHidden` is the eleventh most recently
started download. -/
def blindSnap : List DownloadItem := dHidden :: (List.range 10).map fillerDl

/-- A non-clicked entry submitted before `stE1`. -/
def stPre1 : TabState :=
  ⟨1, "https://rg.net/f/p.html", "p", St.pending, 0, 0, none, none, none⟩

/-- A clicked entry whose tab URL equals `item1w`'s referrer. -/
def stE1 : TabState :=
  ⟨2, "https://rg.net/f/a.html", "a", St.clicked, 0, 0, none, some 1, none⟩

/-- An event carrying the referrer of `stE1`'s tab. -/
def item1w : DownloadItem :=
  ⟨11, "https://cdn.example/q", none, some "https://rg.net/f/a.html", some "",
    DlState.in_progress, 7⟩

/-- A terminal entry submitted before `stE2`. -/
def stPre2 : TabState :=
  ⟨3, "https://rg.net/f/c.html", "c", St.completed, 0, 0, some 4, none, none⟩

/-- A freshly clicked entry eligible for the time-gated rapidgator rule. -/
def stE2 : TabState :=
  ⟨4, "https://rg.net/f/d.html", "d", St.clicked, 0, 90, none, some 2, none⟩

/-- A referrer-less event with a rapidgator download URL. -/
def item2w : DownloadItem :=
  ⟨12, "https://rapidgator.net/download/q", none, none, some "", DlState.in_progress, 95⟩

/-- A completed entry with its download id recorded. -/
def stDone : TabState :=
  ⟨1, "https://rg.net/f/e.html", "e", St.completed, 0, 0, some 5, none, none⟩

/-- A worker state holding only the terminal entry `stDone`. -/
def sysDone : Sys := ⟨[(1, stDone)], [], 3⟩

/-- A qualifying download matched purely through the exact-URL check. -/
def dUrlOnly : DownloadItem :=
  ⟨4, "https://rg.net/download/z/q.bin", none, none, none, DlState.complete, 5⟩

/-! ## Helper lemmas -/

theorem find_first_skip {α : Type} (p : α → Bool) (pre : List α) (e : α) (post : List α)
    (he : p e = true) (hpre : ∀ x ∈ pre, p x = false) :
    (pre ++ e :: post).find? p = some e := by
  induction pre with
  | nil => simpa using List.find?_cons_of_pos post he
  | cons a rest ih =>
      have ha := hpre a (List.mem_cons_self a rest)
      rw [List.cons_append, List.find?_cons_of_neg]
      · exact ih fun x hx => hpre x (List.mem_cons_of_mem a hx)
      · simp [ha]

theorem find_none_of_all_false {α : Type} (p : α → Bool) (l : List α)
    (h : ∀ x ∈ l, p x = false) : l.find? p = none := by
  rw [List.find?_eq_none]
  intro x hx
  simp [h x hx]

theorem mapGet_mapSet (k k' : Nat) (v : TabState) (m : List (Nat × TabState)) :
    mapGet k' (mapSet k v m) = if k = k' then some v else mapGet k' m := by
  induction m with
  | nil => by_cases h : k = k' <;> simp [mapSet, mapGet, h]
  | cons a rest ih =>
      obtain ⟨ka, va⟩ := a
      by_cases hk : ka = k
      · subst hk
        by_cases h : ka = k' <;> simp [mapSet, mapGet, h]
      · by_cases h : ka = k'
        · subst h
          have hkk : ¬ k = ka := fun hc => hk hc.symm
          simp [mapSet, mapGet, hk, hkk]
        · simp [mapSet, mapGet, hk, h, ih]

theorem mapGet_of_mem_nodup (k : Nat) (v : TabState) (m : List (Nat × TabState))
    (hnd : (m.map Prod.fst).Nodup) (hm : (k, v) ∈ m) : mapGet k m = some v := by
  induction m with
  | nil => cases hm
  | cons a rest ih =>
      obtain ⟨ka, va⟩ := a
      rw [List.map_cons, List.nodup_cons] at hnd
      rcases List.mem_cons.mp hm with heq | hmem
      · cases heq
        simp [mapGet]
      · have hka : ¬ ka = k := by
          intro hc
          subst hc
          exact hnd.1 (List.mem_map.mpr ⟨(ka, v), hmem, rfl⟩)
        simp [mapGet, hka]
        exact ih hnd.2 hmem

theorem tier1Find_some (item : DownloadItem) (table : List (Nat × TabState))
    (x : Nat × TabState) (h : tier1Find item table = some x) :
    x ∈ table ∧ tier1Pred item x.2 = true := by
  unfold tier1Find at h
  split at h
  · have hp := @List.find?_some _ (fun q : Nat × TabState => tier1Pred item q.2) x table h
    simp only [] at hp
    exact ⟨List.mem_of_find?_eq_some h, hp⟩
  · cases h

theorem findMatchingTab_clicked (item : DownloadItem) (table : List (Nat × TabState))
    (now : Int) (e : Nat × TabState) (h : findMatchingTab item table now = some e) :
    e ∈ table ∧ e.2.state = St.clicked := by
  unfold findMatchingTab at h
  cases h1 : tier1Find item table with
  | some x =>
      rw [h1] at h
      cases h
      have hx := tier1Find_some item table e h1
      have hp := hx.2
      unfold tier1Pred at hp
      rw [Bool.and_eq_true_iff] at hp
      exact ⟨hx.1, by simpa using hp.1⟩
  | none =>
      rw [h1] at h
      cases h2 : table.find? (fun p => tier2Pred now item p.2) with
      | some x =>
          rw [h2] at h
          cases h
          have hmem := List.mem_of_find?_eq_some h2
          have hp := @List.find?_some _ (fun q : Nat × TabState => tier2Pred now item q.2) e table h2
          simp only [] at hp
          unfold tier2Pred at hp
          rw [Bool.and_eq_true_iff, Bool.and_eq_true_iff] at hp
          exact ⟨hmem, by simpa using hp.1.1⟩
      | none =>
          rw [h2] at h
          cases h3 : table.filter (fun p => p.2.state == St.clicked) with
          | nil => rw [h3] at h; cases h
          | cons y ys =>
              cases ys with
              | nil =>
                  rw [h3] at h
                  cases h
                  have hmem : e ∈ table.filter (fun p => p.2.state == St.clicked) := by
                    rw [h3]
                    exact List.mem_singleton.mpr rfl
                  rw [List.mem_filter] at hmem
                  exact ⟨hmem.1, by simpa using hmem.2⟩
              | cons z zs => rw [h3] at h; cases h

/-! ## Claim C2 -/

/-- **C2**: a download event whose id is at or below the recorded pre-click
epoch, or whose lifecycle state is neither `in_progress` nor `complete`, is
never the poll's match — for every expected filename and clicked URL,
including one equal to the event's own URL — and its presence in the fetched
list never changes the poll's result, so processing it changes nothing. -/
theorem epoch_and_state_filtering (epoch : Nat) (ef eu : Option String)
    (l1 l2 recent : List DownloadItem) (d : DownloadItem)
    (h : d.id ≤ epoch ∨ (d.state ≠ DlState.in_progress ∧ d.state ≠ DlState.complete)) :
    v3FindMatch epoch ef eu (l1 ++ d :: l2) = v3FindMatch epoch ef eu (l1 ++ l2) ∧
    v3FindMatch epoch ef eu recent ≠ some d := by
  have hq : v3Qualifies epoch d = false := by
    unfold v3Qualifies
    rcases h with h | ⟨h1, h2⟩
    · have hd : decide (epoch < d.id) = false := by
        simp only [decide_eq_false_iff_not]
        omega
      simp [hd]
    · cases hd : d.state <;> simp_all
  constructor
  · unfold v3FindMatch
    rw [List.filter_append, List.filter_append, List.filter_cons]
    simp [hq]
  · intro hsome
    unfold v3FindMatch at hsome
    have hmem := List.mem_of_find?_eq_some hsome
    rw [List.mem_filter] at hmem
    have := hmem.2
    rw [hq] at this
    cases this

/-- Witness for `epoch_and_state_filtering`: a stale event with id 3 against
epoch 5, whose URL equals the intent's clicked URL and whose filename equals
the expected filename, is still ignored. -/
theorem epoch_and_state_filtering_w :
    v3FindMatch 5 (some "b.zip") (some "https://rg.net/download/a/b.zip")
        ([] ++ dOld :: []) =
      v3FindMatch 5 (some "b.zip") (some "https://rg.net/download/a/b.zip") ([] ++ []) ∧
    v3FindMatch 5 (some "b.zip") (some "https://rg.net/download/a/b.zip") [dOld] ≠
      some dOld :=
  epoch_and_state_filtering 5 (some "b.zip") (some "https://rg.net/download/a/b.zip")
    [] [] [dOld] dOld (Or.inl (by decide))

/-! ## Claim C5 -/

/-- **C5**: when exactly one clicked entry exists system-wide,
`findMatchingTab` assigns any download event to it unconditionally — for
every event, including one with no referrer, no recognisable URL and an
empty filename, and regardless of the entry's own fields (in particular with
no clicked URL and only the `Tab n` fallback filename). -/
theorem singleton_fallback_unconditional (item : DownloadItem)
    (table : List (Nat × TabState)) (now : Int) (e : Nat × TabState)
    (h : table.filter (fun p => p.2.state == St.clicked) = [e]) :
    findMatchingTab item table now = some e := by
  have huniq : ∀ (q : Nat × TabState → Bool),
      (∀ p, q p = true → p.2.state == St.clicked) →
      ∀ x, table.find? q = some x → x = e := by
    intro q hq x hx
    have hmem := List.mem_of_find?_eq_some hx
    have hpx := @List.find?_some _ q x table hx
    have hx2 : x ∈ table.filter (fun p => p.2.state == St.clicked) := by
      rw [List.mem_filter]
      exact ⟨hmem, hq x hpx⟩
    rw [h] at hx2
    exact List.mem_singleton.mp hx2
  unfold findMatchingTab
  cases h1 : tier1Find item table with
  | some x =>
      have hxe : x = e := by
        unfold tier1Find at h1
        split at h1
        · refine huniq _ ?_ x h1
          intro p hp
          unfold tier1Pred at hp
          exact (Bool.and_eq_true_iff.mp hp).1
        · cases h1
      simp [hxe]
  | none =>
      cases h2 : table.find? (fun p => tier2Pred now item p.2) with
      | some x =>
          have hxe : x = e := by
            refine huniq _ ?_ x h2
            intro p hp
            unfold tier2Pred at hp
            exact (Bool.and_eq_true_iff.mp (Bool.and_eq_true_iff.mp hp).1).1
          simp [hxe]
      | none => simp [h]

/-- Witness for `singleton_fallback_unconditional`: the lone clicked entry
`stLone` (no clicked URL, fallback filename) receives the metadata-free
event `itemLone`. -/
theorem singleton_fallback_unconditional_w :
    findMatchingTab itemLone [(7, stLone)] 99999 = some (7, stLone) :=
  singleton_fallback_unconditional itemLone [(7, stLone)] 99999 (7, stLone) (by decide)

/-! ## Claim C8 -/

/-- **C8**: once the matching wait confirmed a download, v1 `processTab`
reports success carrying the download id whatever the tab-close call does;
a close failure is recorded only as a warning and never flips the outcome. -/
theorem close_failure_keeps_success (tabId : Nat) (cu : Option String)
    (d : DownloadItem) (closeOk : Bool) :
    (processTab tabId (Except.ok cu) (some d) closeOk).success = true ∧
    (processTab tabId (Except.ok cu) (some d) closeOk).downloadId = some d.id ∧
    (processTab tabId (Except.ok cu) (some d) closeOk).error = none ∧
    (processTab tabId (Except.ok cu) (some d) false).success =
      (processTab tabId (Except.ok cu) (some d) true).success := by
  cases closeOk <;> exact ⟨rfl, rfl, rfl, rfl⟩

/-! ## Claim C6 -/

/-- **C6**: from the start of a run, every state the scheduler can reach
through its two events keeps the active-slot count — the number of
concurrently actuating tabs — at or below the configured limit. -/
theorem scheduler_respects_limit (M K : Nat) (s : SchedState)
    (h : Relation.ReflTransGen SchedStep (schedInit M K) s) :
    s.activeSlots ≤ K := by
  have main : s.limit = K ∧ s.activeSlots ≤ K := by
    induction h with
    | refl => exact ⟨rfl, Nat.zero_le K⟩
    | tail hsteps hstep ih =>
        cases hstep with
        | admitTab h1 h2 =>
            refine ⟨ih.1, ?_⟩
            have hK := ih.1
            simp only [SchedState.activeSlots]
            omega
        | finish h3 =>
            refine ⟨ih.1, ?_⟩
            have := ih.2
            simp only [SchedState.activeSlots]
            omega
  exact main.2

/-- Witness for `scheduler_respects_limit`: a run over 3 tabs with limit 2
after two admissions sits at 2 active slots, within the limit. -/
theorem scheduler_respects_limit_w :
    (⟨3, 2, 2, 2⟩ : SchedState).activeSlots ≤ 2 :=
  scheduler_respects_limit 3 2 ⟨3, 2, 2, 2⟩
    (Relation.ReflTransGen.tail
      (Relation.ReflTransGen.tail Relation.ReflTransGen.refl
        (SchedStep.admitTab (schedInit 3 2) (by decide) (by decide)))
      (SchedStep.admitTab ⟨3, 2, 1, 1⟩ (by decide) (by decide)))

/-! ## Claim C10 -/

theorem pollRun_mem (maxIdBefore : Nat) (ef eu : Option String)
    (snaps : List (List DownloadItem)) (x : DownloadItem)
    (h : pollRun maxIdBefore ef eu snaps = some x) :
    ∃ snap ∈ snaps, x ∈ recentTen snap := by
  induction snaps with
  | nil => cases h
  | cons snap rest ih =>
      unfold pollRun at h
      cases hp : pollOnce maxIdBefore ef eu snap with
      | some y =>
          rw [hp] at h
          cases h
          unfold pollOnce v3FindMatch at hp
          have hmem := List.mem_of_find?_eq_some hp
          rw [List.mem_filter] at hmem
          exact ⟨snap, List.mem_cons_self _ _, hmem.1⟩
      | none =>
          rw [hp] at h
          obtain ⟨s', hs', hx⟩ := ih h
          exact ⟨s', List.mem_cons_of_mem _ hs', hx⟩

theorem pollRun_none (maxIdBefore : Nat) (ef eu : Option String) :
    ∀ snaps : List (List DownloadItem),
      (∀ snap ∈ snaps, pollOnce maxIdBefore ef eu snap = none) →
      pollRun maxIdBefore ef eu snaps = none := by
  intro snaps
  induction snaps with
  | nil => intro _; rfl
  | cons snap rest ih =>
      intro h
      unfold pollRun
      rw [h snap (List.mem_cons_self _ _)]
      exact ih fun s hs => h s (List.mem_cons_of_mem _ hs)

/-- **C10**: each poll sees at most the ten most recently started downloads;
a download that is never among them — even one that qualifies (new, right
state) and satisfies the match predicate — is never returned by any poll,
and when nothing else matches either, the whole polling run ends in the
timeout (`none`) although a matching download exists in the store. -/
theorem poll_window_blindspot (snaps : List (List DownloadItem)) (maxIdBefore : Nat)
    (ef eu : Option String) (d : DownloadItem) (all : List DownloadItem)
    (_hmatch : v3Qualifies maxIdBefore d = true ∧ v3Matches ef eu d = true)
    (hd : ∀ snap ∈ snaps, d ∉ recentTen snap)
    (hnone : ∀ snap ∈ snaps, pollOnce maxIdBefore ef eu snap = none) :
    (recentTen all).length ≤ 10 ∧
    pollRun maxIdBefore ef eu snaps ≠ some d ∧
    pollRun maxIdBefore ef eu snaps = none := by
  refine ⟨?_, ?_, pollRun_none maxIdBefore ef eu snaps hnone⟩
  · unfold recentTen
    rw [List.length_take]
    exact Nat.min_le_left _ _
  · intro hsome
    obtain ⟨snap, hs, hx⟩ := pollRun_mem maxIdBefore ef eu snaps d hsome
    exact hd snap hs hx

/-- Witness for `poll_window_blindspot`: `dHidden` qualifies and matches the
intent's expected filename, but ten newer downloads fill the search window,
so the single poll misses it and the run times out. -/
theorem poll_window_blindspot_w :
    (recentTen blindSnap).length ≤ 10 ∧
    pollRun 0 (some "target.zip") none [blindSnap] ≠ some dHidden ∧
    pollRun 0 (some "target.zip") none [blindSnap] = none :=
  poll_window_blindspot [blindSnap] 0 (some "target.zip") none dHidden blindSnap
    ⟨by decide, by decide⟩ (by decide) (by decide)

/-! ## Claim C1 -/

/-- **C1 counterexample**: the event `dBoth` satisfies the exact
clicked-URL check for `intentA` and only the filename-substring check for
`intentB` (which has no clicked URL at all), yet in v1 each clicked intent
polls on its own and `intentB`'s poll also returns the event: the claimant
set is the whole list `[intentA, intentB]`, not `intentA` alone, so the
event is taken by whichever poll runs first rather than by the
exact-URL intent regardless of order. -/
theorem no_cross_intent_arbitration :
    intentA.expectedUrl = some dBoth.url ∧
    intentB.expectedUrl = none ∧
    v3Matches intentB.expectedFilename intentB.expectedUrl dBoth = true ∧
    v3FindMatch intentB.maxIdBefore intentB.expectedFilename intentB.expectedUrl [dBoth] =
      some dBoth ∧
    v3Claimants [dBoth] dBoth [intentA, intentB] = [intentA, intentB] := by
  refine ⟨rfl, rfl, by decide, by decide, by decide⟩

/-- **C1 (amended)**: the event-against-intents matcher of v2,
`findMatchingTab`, does assign an event to the first entry in submission
order that satisfies the highest-priority of *its* rules: when some clicked
entry passes the referrer rule, the first such entry wins (part 1), and when
no entry passes the referrer rule, the first entry passing the time-gated
rapidgator rule wins (part 2).  The exact-clicked-URL and filename-substring
signals of the claim live only in the per-intent v1 poll, which performs no
cross-intent arbitration (see `no_cross_intent_arbitration`). -/
theorem event_matcher_first_highest_tier
    (item1 : DownloadItem) (now1 : Int) (pre1 post1 : List (Nat × TabState))
    (e1 : Nat × TabState)
    (item2 : DownloadItem) (now2 : Int) (pre2 post2 : List (Nat × TabState))
    (e2 : Nat × TabState)
    (h1r : strTruthy item1.referrer = true)
    (h1e : tier1Pred item1 e1.2 = true)
    (h1pre : ∀ x ∈ pre1, tier1Pred item1 x.2 = false)
    (h2t1 : ∀ x ∈ pre2 ++ e2 :: post2, tier1Pred item2 x.2 = false)
    (h2e : tier2Pred now2 item2 e2.2 = true)
    (h2pre : ∀ x ∈ pre2, tier2Pred now2 item2 x.2 = false) :
    findMatchingTab item1 (pre1 ++ e1 :: post1) now1 = some e1 ∧
    findMatchingTab item2 (pre2 ++ e2 :: post2) now2 = some e2 := by
  constructor
  · have hfind : (pre1 ++ e1 :: post1).find? (fun p => tier1Pred item1 p.2) = some e1 :=
      find_first_skip (fun p => tier1Pred item1 p.2) pre1 e1 post1 h1e h1pre
    unfold findMatchingTab tier1Find
    rw [h1r]
    simp [hfind]
  · have ht1 : (pre2 ++ e2 :: post2).find? (fun p => tier1Pred item2 p.2) = none :=
      find_none_of_all_false (fun p => tier1Pred item2 p.2) (pre2 ++ e2 :: post2) h2t1
    have ht2 : (pre2 ++ e2 :: post2).find? (fun p => tier2Pred now2 item2 p.2) = some e2 :=
      find_first_skip (fun p => tier2Pred now2 item2 p.2) pre2 e2 post2 h2e h2pre
    unfold findMatchingTab tier1Find
    cases hr : strTruthy item2.referrer
    · simp [ht2]
    · simp [ht1, ht2]

/-- Witness for `event_matcher_first_highest_tier`: part 1 on a referrer
event against `[stPre1, stE1]`, part 2 on a referrer-less rapidgator event
against `[stPre2, stE2]`. -/
theorem event_matcher_first_highest_tier_w :
    findMatchingTab item1w [(1, stPre1), (2, stE1)] 7 = some (2, stE1) ∧
    findMatchingTab item2w [(3, stPre2), (4, stE2)] 95 = some (4, stE2) :=
  event_matcher_first_highest_tier item1w 7 [(1, stPre1)] [] (2, stE1)
    item2w 95 [(3, stPre2)] [] (4, stE2)
    (by decide) (by decide) (by decide) (by decide) (by decide) (by decide)

/-! ## Claim C3 -/

/-- **C3 counterexample**: after intent 1 is matched (download id 5) and
reaches the terminal `completed` state, a later `onChanged` delta for the
same download id carrying `interrupted` mutates it to `failed` — the
`onChanged` listener has no terminal-state guard. -/
theorem late_delta_mutates_terminal :
    (mapGet 1 c3s3.table).map TabState.state = some St.completed ∧
    (mapGet 1 c3s4.table).map TabState.state = some St.failed ∧
    St.completed ≠ St.failed := by
  refine ⟨by decide, by decide, by decide⟩

/-- **C3 (amended)**: a terminal (`completed` or `failed`) entry is immune
to the duplicate-event and duplicate-timeout paths — `onCreated` only ever
rebinds a `clicked` entry and the timeout callback only mutates a `clicked`
entry — but not to the `onChanged` path (see
`late_delta_mutates_terminal`). -/
theorem terminal_preserved_by_event_and_timeout (s : Sys) (item : DownloadItem)
    (now : Int) (timerId tabId : Nat) (st : TabState)
    (hnd : (s.table.map Prod.fst).Nodup)
    (hget : mapGet tabId s.table = some st)
    (hterm : st.state = St.completed ∨ st.state = St.failed) :
    mapGet tabId (onCreated item now s).table = some st ∧
    mapGet tabId (fireTimeout timerId s).table = some st := by
  have hnc : ¬ st.state = St.clicked := by
    rcases hterm with h | h <;> simp [h]
  constructor
  · unfold onCreated
    cases hm : findMatchingTab item s.table now with
    | none => exact hget
    | some e =>
        obtain ⟨tid, mst⟩ := e
        have hcl := findMatchingTab_clicked item s.table now (tid, mst) hm
        by_cases htid : tid = tabId
        · subst htid
          have hmg : mapGet tid s.table = some mst :=
            mapGet_of_mem_nodup tid mst s.table hnd hcl.1
          rw [hget] at hmg
          cases hmg
          exact absurd hcl.2 hnc
        · show mapGet tabId (mapSet tid _ s.table) = some st
          rw [mapGet_mapSet]
          simp [htid, hget]
  · unfold fireTimeout
    cases hf : s.timers.find? (fun p => p.1 == timerId) with
    | none => exact hget
    | some pr =>
        obtain ⟨tmr, tid2⟩ := pr
        dsimp only
        cases hg2 : mapGet tid2 s.table with
        | none => dsimp only; exact hget
        | some st2 =>
            dsimp only
            cases hcb : (st2.state == St.clicked) with
            | false => simp only [hcb, Bool.false_eq_true, if_false]; exact hget
            | true =>
                simp only [hcb, if_true]
                unfold updateState
                dsimp only
                rw [hg2]
                dsimp only
                by_cases htid : tid2 = tabId
                · subst htid
                  rw [hget] at hg2
                  cases hg2
                  have hclk : st.state = St.clicked := by simpa using hcb
                  exact absurd hclk hnc
                · show mapGet tabId (mapSet tid2 _ s.table) = some st
                  rw [mapGet_mapSet]
                  simp [htid, hget]

/-- Witness for `terminal_preserved_by_event_and_timeout`: the completed
entry of `sysDone` survives a matching-looking created event and a timer
fire unchanged. -/
theorem terminal_preserved_by_event_and_timeout_w :
    mapGet 1 (onCreated c3item 0 sysDone).table = some stDone ∧
    mapGet 1 (fireTimeout 1 sysDone).table = some stDone :=
  terminal_preserved_by_event_and_timeout sysDone c3item 0 1 1 stDone
    (by decide) (by decide) (Or.inl (by decide))

/-! ## Claim C4 -/

/-- **C4**: the manual clear (`clearStates`) empties the intent table but
cancels no timer: after tab 1's clicked intent is cleared mid-run, its 30 s
timer stays live (`c4s2.timers = [(1, 1)]`); when the same tab is
re-submitted and clicked again in a new run, the stale timer fires and
mutates the fresh `clicked` intent to `failed`.  This evaluates the code on
the failing trace of the claim's "manual clear" resolution path. -/
theorem stale_timer_kills_resubmitted_intent :
    c4s2.table = [] ∧
    c4s2.timers = [(1, 1)] ∧
    (mapGet 1 c4s3.table).map TabState.state = some St.clicked ∧
    (mapGet 1 c4s4.table).map TabState.state = some St.failed := by
  refine ⟨rfl, by decide, by decide, by decide⟩

/-! ## Claim C7 -/

/-- **C7**: `handleRetryFailed` does guard on a `failed` state, the retry
ceiling and a live tab, with a distinct result per violated precondition —
but the resubmission through `handleStartDownload` re-initialises the entry
with `retryCount: 0`, so the ceiling never engages: the third retry of the
same intent (beyond `MAX_RETRY_COUNT = 2`) still proceeds and the stored
retry count is 0 after three retries. -/
theorem retry_count_reset_unbounded :
    (mapGet 1 c7s1.table).map TabState.state = some St.failed ∧
    c7r1.2 = RetryResult.proceeded false ∧
    c7r2.2 = RetryResult.proceeded false ∧
    c7r3.2 = RetryResult.proceeded false ∧
    (mapGet 1 c7r3.1.table).map TabState.retryCount = some 0 := by
  refine ⟨by decide, by decide, by decide, by decide, by decide⟩

/-! ## Claim C9 -/

/-- **C9 counterexample**: on the source URL
`https://rg.net/file/x/file.html.zip` the code removes the *first*
occurrence of `".html"` from the final path segment, yielding `file.zip`,
while the specified suffix-stripping (`specExpectedFilename`, written from
the spec's words) leaves the segment unchanged because `".html"` is not a
suffix — the two derivations disagree. -/
theorem replace_first_not_suffix_strip :
    expectedFilenameOf "https://rg.net/file/x/file.html.zip" = some "file.zip" ∧
    specExpectedFilename "https://rg.net/file/x/file.html.zip" = some "file.html.zip" ∧
    some "file.zip" ≠ some "file.html.zip" := by
  refine ⟨by decide, by decide, by decide⟩

/-- **C9 (amended)**: `expectedFilename` is the final path segment of the
URL, percent-decoded, with the *first occurrence* of `".html"` removed —
which coincides with stripping the `".html"` suffix exactly when no earlier
occurrence exists (part 1, stated on the segment-level replace used by the
extraction); and an absent result never blocks matching: with no expected
filename the poll still matches through the exact-URL check (part 2); part 3
exhibits the full pipeline (segment selection, replace, percent-decoding) on
a representative URL. -/
theorem extract_first_occurrence (stem : List Char)
    (hs : ∀ i, i < stem.length →
      (".html".data.isPrefixOf ((stem ++ ".html".data).drop i)) = false)
    (epoch : Nat) (eu : Option String) (d : DownloadItem)
    (hq : v3Qualifies epoch d = true) (ht : strTruthy eu = true)
    (he : eu = some d.url) :
    replaceFirstL (stem ++ ".html".data) ".html".data = stem ∧
    v3FindMatch epoch none eu [d] = some d ∧
    expectedFilenameOf "https://rg.net/file/abcd/Report%201.pdf.html" =
      some "Report 1.pdf" := by
  refine ⟨?_, ?_, by decide⟩
  · clear hq ht he
    induction stem with
    | nil => decide
    | cons c cs ih =>
        have h0 := hs 0 (Nat.zero_lt_succ _)
        rw [List.cons_append] at h0 ⊢
        rw [List.drop_zero] at h0
        unfold replaceFirstL
        rw [h0]
        simp only [Bool.false_eq_true, if_false]
        have hrest : ∀ i, i < cs.length →
            (".html".data.isPrefixOf ((cs ++ ".html".data).drop i)) = false := by
          intro i hi
          have := hs (i + 1) (Nat.succ_lt_succ hi)
          rwa [List.cons_append, List.drop_succ_cons] at this
        rw [ih hrest]
  · unfold v3FindMatch
    have hfil : [d].filter (v3Qualifies epoch) = [d] := by
      simp [List.filter, hq]
    rw [hfil]
    have hm : v3Matches none eu d = true := by
      unfold v3Matches
      subst he
      simp [strTruthy] at ht
      simp [strTruthy, ht]
    simp [List.find?, hm]

/-- Witness for `extract_first_occurrence`: the stem `a.b` (no embedded
`".html"`), and the download `dUrlOnly` matched by URL with no expected
filename. -/
theorem extract_first_occurrence_w :
    replaceFirstL ("a.b".data ++ ".html".data) ".html".data = "a.b".data ∧
    v3FindMatch 0 none (some dUrlOnly.url) [dUrlOnly] = some dUrlOnly ∧
    expectedFilenameOf "https://rg.net/file/abcd/Report%201.pdf.html" =
      some "Report 1.pdf" :=
  extract_first_occurrence "a.b".data (by decide) 0 (some dUrlOnly.url) dUrlOnly
    (by decide) (by decide) rfl
